import Mathlib

/-!
Shallow embedding of `annotations_line2d.py` — an interactive annotation
layer for 2D line plots.  The module defines
`DraggableAnnotationLine2D` (a draggable annotation guarded by a
class-level thread lock), `AnnotationPicker` (a controller dispatching
pick events), and module-level wiring functions
(`enable_callbacks`, `disable_callbacks`, `annotate`,
`_find_annotations_instance`, `_on_pick_event`).

Toolkit-owned machinery (coordinate transforms, hit testing, rendering)
is modelled as explicit inputs (booleans for hit tests, integers for
already-converted data coordinates); everything written in the module
itself is translated directly.
-/

namespace AnnotationsLine2d

/-! ### The class-level drag lock (`DraggableAnnotationLine2D._drag_lock`)

A `threading.Lock` is a boolean: held or free.  `release` on a lock that
is not held raises `RuntimeError`, modelled as `Except Unit`. -/

/-- Embedding of `threading.Lock.release`: returns the new lock state
(free) or raises `RuntimeError` when the lock is already free. -/
def lock_release (held : Bool) : Except Unit Bool :=
  if held then .ok false else .error ()

/-- Embedding of `threading.Lock.acquire(False)` (non-blocking): returns
whether the acquisition succeeded together with the new lock state. -/
def lock_acquire_nonblocking (held : Bool) : Bool × Bool :=
  if held then (false, held) else (true, true)

/-- Embedding of the lock handling in
`DraggableAnnotationLine2D.on_release` (lines 150-161): the class-level
lock is released inside `try:`, with `RuntimeError` caught and
suppressed.  The result is the lock state after the handler; an
uncaught exception would be `.error`. -/
def on_release_lock (held : Bool) : Except Unit Bool :=
  match lock_release held with
  | .ok h => .ok h
  | .error _ => .ok held

/-! ### The pick / release transition system (claim C1)

`artist_picker` (lines 58-81) reports a hit only when the mouse button
is admissible, the cursor is inside the annotation's bbox, and the
non-blocking acquisition of the shared lock succeeds.  On mouse
release the canvas dispatches `on_release` to every connected
draggable, each of which drops its drag (base-class behaviour) and
releases the lock with the `RuntimeError` suppressed. -/

/-- The button test of `artist_picker`: left or right click always
works; middle click (slide) requires `self.line` and `self.index`. -/
def button_allowed (button : Nat) (hasLine hasIndex : Bool) : Bool :=
  (button == 1 || button == 3) || (button == 2 && hasLine && hasIndex)

/-- Shared state of all `DraggableAnnotationLine2D` instances: the
class-level lock and the ids of the instances currently holding a
drag. -/
structure DragSys where
  lockHeld : Bool
  holders : List Nat
  deriving Repr, DecidableEq

/-- Initial state: lock free, nobody dragging. -/
def DragSys.init : DragSys := { lockHeld := false, holders := [] }

/-- Embedding of `DraggableAnnotationLine2D.artist_picker` for instance
`i`.  `hasLine`/`hasIndex` model `self.line`/`self.index` being
assigned, `contains` models `ref_artist.get_bbox_patch().contains(event)`.
Returns the boolean of the `(bool, attr)` pair together with the
updated shared state. -/
def artist_picker (i : Nat) (button : Nat) (hasLine hasIndex : Bool)
    (contains : Bool) (s : DragSys) : Bool × DragSys :=
  if button_allowed button hasLine hasIndex then
    if contains then
      if (lock_acquire_nonblocking s.lockHeld).1 then
        (true, { lockHeld := true, holders := i :: s.holders })
      else
        (false, s)
    else (false, s)
  else (false, s)

/-- A mouse release: the canvas dispatches `on_release` to every
connected instance; the dragging one drops its artist (base-class
`on_release`) and all of them release the lock with the error
suppressed. -/
def mouse_release (s : DragSys) : DragSys :=
  { lockHeld := (on_release_lock s.lockHeld).toOption.getD false
    holders := [] }

/-- An externally visible event: some instance is picked, or the mouse
button is released. -/
inductive Ev where
  | pick (i button : Nat) (hasLine hasIndex contains : Bool)
  | release
  deriving Repr, DecidableEq

/-- One step of the pick/release system. -/
def step (s : DragSys) : Ev → DragSys
  | .pick i b hl hi c => (artist_picker i b hl hi c s).2
  | .release => mouse_release s

/-- The state reached from the initial state by a sequence of events. -/
def run (evs : List Ev) : DragSys := evs.foldl step DragSys.init

/-- The inductive invariant: the holder list has at most one element,
and the lock is held whenever someone holds a drag. -/
def DragSys.Inv (s : DragSys) : Prop :=
  s.holders.length ≤ 1 ∧ (s.lockHeld = false → s.holders = [])

theorem step_preserves_inv {s : DragSys} (h : s.Inv) (e : Ev) :
    (step s e).Inv := by
  rcases e with ⟨i, b, hl, hi, c⟩ | _
  · simp only [step, artist_picker]
    split
    · split
      · rcases hs : s.lockHeld with _ | _
        · have hempty := h.2 hs
          simp [lock_acquire_nonblocking, hs, DragSys.Inv, hempty]
        · simp [lock_acquire_nonblocking, hs]
          exact h
      · exact h
    · exact h
  · simp [step, mouse_release, DragSys.Inv]

theorem run_inv (evs : List Ev) : (run evs).Inv := by
  suffices h : ∀ s : DragSys, s.Inv → (evs.foldl step s).Inv by
    exact h DragSys.init (by simp [DragSys.Inv, DragSys.init])
  induction evs with
  | nil => intro s hs; exact hs
  | cons e rest ih =>
      intro s hs
      exact ih (step s e) (step_preserves_inv hs e)

/-! ### Controller lookup (`_find_annotations_instance`, lines 378-394)

The `annotations_line2d` attribute may sit on the artist, on its axes,
or on its figure; controllers are identified by a `Nat` id.  An artist
object, as far as attribute access is concerned, is the five facts the
function inspects. -/

/-- The attribute surface of an artist as seen by
`_find_annotations_instance`: its own `annotations_line2d` attribute
(when set), whether it has `get_axes` and the axes' attribute, whether
it has `get_figure` and the figure's attribute. -/
structure ArtistAttrs where
  anno : Option Nat
  has_get_axes : Bool
  axesAnno : Option Nat
  has_get_figure : Bool
  figAnno : Option Nat
  deriving Repr, DecidableEq

/-- Embedding of `_find_annotations_instance`: chain of
`hasattr`/`getattr` checks on the artist, its axes, and its figure, in
that order; `none` when no attribute is found. -/
def find_annotations_instance (a : ArtistAttrs) : Option Nat :=
  if a.anno.isSome then a.anno
  else if a.has_get_axes && a.axesAnno.isSome then a.axesAnno
  else if a.has_get_figure && a.figAnno.isSome then a.figAnno
  else none

/-! ### The pick-event path (`AnnotationPicker._onpick`, `_on_pick_event`)

A pick event carries the mouse button, the key modifier, whether the
picked artist is a `Line2D`, and the list of in-range data indices.
`AnnotationPicker.annotate` (lines 245-264) anchors a new annotation at
`line.get_xydata()[index]`. -/

/-- A canvas pick event as inspected by `AnnotationPicker._onpick`. -/
structure PickEv where
  button : Nat
  key : Option String
  isLine2D : Bool
  ind : List Nat
  deriving Repr, DecidableEq

/-- Embedding of `AnnotationPicker.annotate` (lines 245-264): the new
annotation is anchored at `line.get_xydata()[index]`; the controller's
formatter is used exactly when no manual text is given.  Returns the
anchor point and whether the formatter was attached. -/
def AnnotationPicker.annotate (xydata : List (Int × Int)) (index : Nat)
    (text : Option String) : (Int × Int) × Bool :=
  (xydata.getD index (0, 0), text.isNone)

/-- Embedding of `AnnotationPicker._onpick` (lines 276-286) for a
controller configured with button `cb` and key `ck`, picking a line
with data `xydata`: when the event's button, key and artist type all
match, the middle in-range index is annotated; otherwise nothing
happens.  Returns the created annotation's anchor and index, or
`none`. -/
def AnnotationPicker.onpick (cb : Nat) (ck : Option String)
    (xydata : List (Int × Int)) (e : PickEv) : Option ((Int × Int) × Nat) :=
  if e.button = cb ∧ e.key = ck ∧ e.isLine2D = true then
    let ind := e.ind.getD (e.ind.length / 2) 0
    some ((AnnotationPicker.annotate xydata ind none).1, ind)
  else
    none

/-- Embedding of the canvas dispatcher `_on_pick_event` (lines 413-424):
look up the controlling instance of the picked artist and call its
`_onpick`; a silent no-op when none is found.  `cfgs` gives each
controller id its configured `(button, key)`. -/
def on_pick_event (cfgs : Nat → Nat × Option String)
    (xydata : List (Int × Int)) (a : ArtistAttrs) (e : PickEv) :
    Option ((Int × Int) × Nat) :=
  match find_annotations_instance a with
  | some inst => AnnotationPicker.onpick (cfgs inst).1 (cfgs inst).2 xydata e
  | none => none

/-- Embedding of the module-level `annotate` function (lines 327-345):
when no controlling instance is found, a default `AnnotationPicker`
(with fresh id `fresh`) is created and attached to the line, and the
annotation is made through it.  Returns (a new controller was created,
an annotation was made, the line's attributes afterwards). -/
def module_annotate (a : ArtistAttrs) (fresh : Nat) :
    Bool × Bool × ArtistAttrs :=
  match find_annotations_instance a with
  | some _ => (false, true, a)
  | none => (true, true, { a with anno := some fresh })

/-! ### Canvas callback wiring (`enable_callbacks`, `disable_callbacks`)

A canvas carries the `annotations_line2d` attribute (a list of callback
ids) once callbacks are enabled, a list of live signal connections, and
a counter handing out fresh callback ids (modelling `mpl_connect`'s
return value). -/

/-- The canvas state seen by the wiring functions. -/
structure Canvas where
  attr : Option (List Nat)
  connected : List (String × Nat)
  nextCid : Nat
  deriving Repr, DecidableEq

/-- Embedding of `enable_callbacks` (lines 293-310), after the
figure-to-canvas resolution: if the canvas does not yet carry the
`annotations_line2d` attribute, connect `pick_event` and
`figure_enter_event` and store the two callback ids there; otherwise
do nothing. -/
def enable_callbacks (c : Canvas) : Canvas :=
  if c.attr.isSome then c
  else
    { attr := some [c.nextCid, c.nextCid + 1]
      connected := c.connected ++
        [("pick_event", c.nextCid), ("figure_enter_event", c.nextCid + 1)]
      nextCid := c.nextCid + 2 }

/-- Embedding of `disable_callbacks` (lines 313-324): disconnect every
callback id found in the attribute, defaulting to the empty list, then
`delattr` the attribute — which raises `AttributeError` when the
attribute is absent. -/
def disable_callbacks (c : Canvas) : Except String Canvas :=
  let cbs := c.attr.getD []
  let c2 : Canvas :=
    { c with connected := c.connected.filter (fun p => decide (p.2 ∉ cbs)) }
  match c.attr with
  | some _ => .ok { c2 with attr := none }
  | none => .error "AttributeError"

/-! ### The draggable annotation's lifecycle (`finalize_offset`, `remove`)

The per-instance state that `remove` (lines 169-175) touches: the drag
callbacks, the annotation artist's presence in the figure, the
`got_artist` flag, and the canvas redraw count; `finalize_offset`
(lines 139-147) may also print the annotation text. -/

/-- The per-instance state mutated by `finalize_offset` and `remove`. -/
structure DragArtist where
  connected : Bool
  artistInFigure : Bool
  got_artist : Bool
  drawCount : Nat
  printed : Bool
  deriving Repr, DecidableEq

/-- Embedding of `DraggableAnnotationLine2D.remove`: disconnect the
callbacks, remove the annotation artist, clear `got_artist`, redraw
the canvas. -/
def DragArtist.remove (s : DragArtist) : DragArtist :=
  { s with connected := false, artistInFigure := false,
           got_artist := false, drawCount := s.drawCount + 1 }

/-- Embedding of `DraggableAnnotationLine2D.finalize_offset`: on middle
click with a formatter, print the annotation; on right click, delete
it; otherwise do nothing. -/
def finalize_offset (button : Nat) (hasFormatter : Bool)
    (s : DragArtist) : DragArtist :=
  if button = 2 ∧ hasFormatter = true then { s with printed := true }
  else if button = 3 then s.remove
  else s

/-! ### The middle-click slide (`update_offset`, lines 105-136, button 2)

The toolkit converts the dragged pixel position to data coordinates
(`new_data_xy`); the loops then slide the stored index left while the
previous point's x exceeds the new x, and right while the next point's
x is below it.  Data coordinates are modelled as integers. -/

/-- The first while loop of `update_offset`:
`while index > 0 and xydata[index-1][0] > new_x: index -= 1`. -/
def moveLeft (xs : List (Int × Int)) (newX : Int) : Nat → Nat
  | 0 => 0
  | i + 1 => if (xs.getD i (0, 0)).1 > newX then moveLeft xs newX i else i + 1

/-- The second while loop of `update_offset`:
`while index < len - 1 and xydata[index+1][0] < new_x: index += 1`. -/
def moveRight (xs : List (Int × Int)) (newX : Int) (i : Nat) : Nat :=
  if h : i < xs.length - 1 ∧ (xs.getD (i + 1) (0, 0)).1 < newX then
    moveRight xs newX (i + 1)
  else i
termination_by xs.length - i
decreasing_by
  have : i < xs.length - 1 := h.1
  omega

/-- Both loops in sequence: the index the middle-click drag slides to. -/
def slideIndex (xs : List (Int × Int)) (newX : Int) (i : Nat) : Nat :=
  moveRight xs newX (moveLeft xs newX i)

/-- The annotation state `update_offset` mutates on a middle click:
the stored data index, the anchor point `ref_artist.xy`, and the
annotation text. -/
structure AnnState where
  index : Nat
  xy : Int × Int
  text : Option String
  deriving Repr, DecidableEq

/-- Embedding of the button-2 branch of
`DraggableAnnotationLine2D.update_offset`: slide the index through the
two while loops; exactly when the index changed, re-anchor the
annotation at `xydata[index]` and, when a formatter is present,
regenerate the text from it.  `fmt` is `self.formatter` with the line
already applied; `newX` is the x of `new_data_xy`. -/
def update_offset_button2 (xydata : List (Int × Int))
    (fmt : Option (Nat → String)) (newX : Int) (s : AnnState) : AnnState :=
  let index := slideIndex xydata newX s.index
  if index ≠ s.index then
    { index := index
      xy := xydata.getD index (0, 0)
      text := match fmt with
              | some f => some (f index)
              | none => s.text }
  else s

/-! ### Loop lemmas for the middle-click slide -/

theorem moveLeft_le (xs : List (Int × Int)) (newX : Int) (i : Nat) :
    moveLeft xs newX i ≤ i := by
  induction i with
  | zero => simp [moveLeft]
  | succ n ih =>
      rw [moveLeft]
      split
      · omega
      · omega

theorem moveLeft_exit (xs : List (Int × Int)) (newX : Int) (i : Nat) :
    moveLeft xs newX i = 0 ∨
      (xs.getD (moveLeft xs newX i - 1) (0, 0)).1 ≤ newX := by
  induction i with
  | zero => simp [moveLeft]
  | succ n ih =>
      rw [moveLeft]
      split
      · exact ih
      · next h => exact Or.inr (le_of_not_lt h)

theorem moveRight_spec (xs : List (Int × Int)) (newX : Int) (i : Nat) :
    i ≤ moveRight xs newX i ∧
    ¬(moveRight xs newX i < xs.length - 1 ∧
        (xs.getD (moveRight xs newX i + 1) (0, 0)).1 < newX) ∧
    (moveRight xs newX i ≠ i → (xs.getD (moveRight xs newX i) (0, 0)).1 < newX) ∧
    (i ≤ xs.length - 1 → moveRight xs newX i ≤ xs.length - 1) := by
  suffices h : ∀ fuel j, xs.length - j ≤ fuel →
      (j ≤ moveRight xs newX j ∧
       ¬(moveRight xs newX j < xs.length - 1 ∧
           (xs.getD (moveRight xs newX j + 1) (0, 0)).1 < newX) ∧
       (moveRight xs newX j ≠ j → (xs.getD (moveRight xs newX j) (0, 0)).1 < newX) ∧
       (j ≤ xs.length - 1 → moveRight xs newX j ≤ xs.length - 1)) by
    exact h xs.length i (Nat.sub_le _ _)
  intro fuel
  induction fuel with
  | zero =>
      intro j hj
      have hcond : ¬(j < xs.length - 1 ∧ (xs.getD (j + 1) (0, 0)).1 < newX) := by
        intro hc; omega
      rw [moveRight, dif_neg hcond]
      exact ⟨le_refl j, hcond, fun h => absurd rfl h, fun h => h⟩
  | succ fuel ih =>
      intro j hj
      by_cases hcond : j < xs.length - 1 ∧ (xs.getD (j + 1) (0, 0)).1 < newX
      · rw [moveRight, dif_pos hcond]
        have hj' : xs.length - (j + 1) ≤ fuel := by omega
        obtain ⟨h1, h2, h3, h4⟩ := ih (j + 1) hj'
        refine ⟨by omega, h2, ?_, fun _ => h4 (by omega)⟩
        intro _
        by_cases heq : moveRight xs newX (j + 1) = j + 1
        · rw [heq]; exact hcond.2
        · exact h3 heq
      · rw [moveRight, dif_neg hcond]
        exact ⟨le_refl j, hcond, fun h => absurd rfl h, fun h => h⟩

/-- The middle-click slide lands between the neighbouring data points:
for strictly increasing x-data, the index reached by the two while
loops has its left neighbour at or below the dragged x and its right
neighbour at or above it. -/
theorem slideIndex_post (xs : List (Int × Int)) (newX : Int) (i : Nat)
    (hi : i < xs.length)
    (hmono : ∀ p q, p < q → q < xs.length →
      (xs.getD p (0, 0)).1 < (xs.getD q (0, 0)).1) :
    (slideIndex xs newX i = 0 ∨
       (xs.getD (slideIndex xs newX i - 1) (0, 0)).1 ≤ newX) ∧
    (slideIndex xs newX i = xs.length - 1 ∨
       newX ≤ (xs.getD (slideIndex xs newX i + 1) (0, 0)).1) ∧
    slideIndex xs newX i ≤ xs.length - 1 := by
  have hl : moveLeft xs newX i ≤ i := moveLeft_le xs newX i
  obtain ⟨h1, h2, h3, h4⟩ := moveRight_spec xs newX (moveLeft xs newX i)
  have hbound : slideIndex xs newX i ≤ xs.length - 1 :=
    h4 (by omega)
  refine ⟨?_, ?_, hbound⟩
  · by_cases heq : moveRight xs newX (moveLeft xs newX i) = moveLeft xs newX i
    · have := moveLeft_exit xs newX i
      rw [slideIndex, heq]
      exact this
    · have hlt : (xs.getD (slideIndex xs newX i) (0, 0)).1 < newX := h3 heq
      right
      have hr1 : 1 ≤ slideIndex xs newX i := by
        unfold slideIndex at *; omega
      have hstep : (xs.getD (slideIndex xs newX i - 1) (0, 0)).1 <
          (xs.getD (slideIndex xs newX i) (0, 0)).1 := by
        apply hmono
        · omega
        · omega
      exact le_of_lt (lt_trans hstep hlt)
  · by_cases hend : slideIndex xs newX i = xs.length - 1
    · exact Or.inl hend
    · right
      have : slideIndex xs newX i < xs.length - 1 := by
        unfold slideIndex at *; omega
      unfold slideIndex at *
      exact le_of_not_lt (fun hc => h2 ⟨this, hc⟩)

/-! ### Claim theorems -/

/-- C1: at most one annotation is dragged at any time.  In every state
reachable by pick (`artist_picker`) and release (`on_release`) events,
at most one instance holds the drag; `artist_picker` reports a
successful hit only when the non-blocking acquisition of the shared
class-level lock succeeds, and while the lock is held `artist_picker`
on every instance returns `(False, None)` and changes nothing. -/
theorem drag_lock_mutual_exclusion :
    (∀ evs : List Ev, (run evs).holders.length ≤ 1) ∧
    (∀ (s : DragSys) (i button : Nat) (hl hi c : Bool),
       s.lockHeld = true → artist_picker i button hl hi c s = (false, s)) ∧
    (∀ (s : DragSys) (i button : Nat) (hl hi c : Bool),
       (artist_picker i button hl hi c s).1 = true →
         s.lockHeld = false ∧
         (artist_picker i button hl hi c s).2.lockHeld = true) := by
  refine ⟨fun evs => (run_inv evs).1, ?_, ?_⟩
  · intro s i b hl hi c hs
    simp [artist_picker, lock_acquire_nonblocking, hs]
  · intro s i b hl hi c hpick
    rcases hs : s.lockHeld with _ | _
    · refine ⟨rfl, ?_⟩
      by_cases hba : button_allowed b hl hi = true
      · by_cases hc : c = true
        · simp [artist_picker, lock_acquire_nonblocking, hs, hba, hc]
        · simp [artist_picker, hba, hc] at hpick
      · simp [artist_picker, hba] at hpick
    · exfalso
      simp [artist_picker, lock_acquire_nonblocking, hs] at hpick

theorem drag_lock_mutual_exclusion_witness :
    (run [Ev.pick 1 1 false false true,
          Ev.pick 2 3 false false true]).holders.length ≤ 1 ∧
    artist_picker 2 1 false false true { lockHeld := true, holders := [1] } =
      (false, { lockHeld := true, holders := [1] }) ∧
    (({ lockHeld := false, holders := [] } : DragSys).lockHeld = false ∧
     (artist_picker 1 1 false false true
        { lockHeld := false, holders := [] }).2.lockHeld = true) :=
  ⟨drag_lock_mutual_exclusion.1 _,
   drag_lock_mutual_exclusion.2.1 _ 2 1 false false true rfl,
   drag_lock_mutual_exclusion.2.2 _ 1 1 false false true rfl⟩

/-- C2: `on_release` leaves the global drag lock unlocked for every
release, whatever the lock state: the `RuntimeError` of releasing an
already-released lock is caught and suppressed, so the handler never
raises for that condition and the lock ends up free. -/
theorem on_release_leaves_lock_free (held : Bool) :
    on_release_lock held = Except.ok false := by
  cases held <;> rfl

/-- C3 counterexample: for an artist with no `annotations_line2d`
attribute anywhere, the module-level `annotate` is NOT a silent no-op:
it creates a controller and changes the artist's state. -/
theorem module_annotate_no_instance_counterexample :
    find_annotations_instance ⟨none, false, none, false, none⟩ = none ∧
    (module_annotate ⟨none, false, none, false, none⟩ 7).1 = true ∧
    (module_annotate ⟨none, false, none, false, none⟩ 7).2.2 ≠
      (⟨none, false, none, false, none⟩ : ArtistAttrs) :=
  ⟨rfl, rfl, by decide⟩

/-- C3 amended: when no controlling instance is found for an artist,
the canvas pick dispatcher `_on_pick_event` is a silent no-op (no
controller is called, no annotation is created); the module-level
`annotate` function instead creates a default `AnnotationPicker`,
attaches it to the line, and makes the annotation through it. -/
theorem no_instance_pick_noop_annotate_creates (a : ArtistAttrs)
    (fresh : Nat) (h : find_annotations_instance a = none) :
    (∀ cfgs xyd e, on_pick_event cfgs xyd a e = none) ∧
    module_annotate a fresh = (true, true, { a with anno := some fresh }) := by
  constructor
  · intro cfgs xyd e
    simp [on_pick_event, h]
  · simp [module_annotate, h]

theorem no_instance_pick_noop_annotate_creates_witness :
    on_pick_event (fun _ => (1, some "control")) [(0, 0)]
      ⟨none, false, none, false, none⟩ ⟨1, some "control", true, [0]⟩ = none ∧
    module_annotate ⟨none, false, none, false, none⟩ 7 =
      (true, true, ⟨some 7, false, none, false, none⟩) :=
  ⟨(no_instance_pick_noop_annotate_creates
      ⟨none, false, none, false, none⟩ 7 rfl).1 _ _ _,
   (no_instance_pick_noop_annotate_creates
      ⟨none, false, none, false, none⟩ 7 rfl).2⟩

/-- C4: controller lookup walks artist, then axes, then figure, the
nearest hit winning, and returns `none` only when all three fail;
pick-event dispatch calls the `_onpick` of exactly the instance so
found. -/
theorem find_annotations_instance_chain (a : ArtistAttrs) :
    (∀ c, a.anno = some c → find_annotations_instance a = some c) ∧
    (a.anno = none → a.has_get_axes = true → ∀ c, a.axesAnno = some c →
       find_annotations_instance a = some c) ∧
    (a.anno = none → a.has_get_axes = false ∨ a.axesAnno = none →
       a.has_get_figure = true → ∀ c, a.figAnno = some c →
       find_annotations_instance a = some c) ∧
    (a.anno = none → a.has_get_axes = false ∨ a.axesAnno = none →
       a.has_get_figure = false ∨ a.figAnno = none →
       find_annotations_instance a = none) ∧
    (∀ cfgs xyd e inst, find_annotations_instance a = some inst →
       on_pick_event cfgs xyd a e =
         AnnotationPicker.onpick (cfgs inst).1 (cfgs inst).2 xyd e) ∧
    (∀ cfgs xyd e, find_annotations_instance a = none →
       on_pick_event cfgs xyd a e = none) := by
  refine ⟨?_, ?_, ?_, ?_, ?_, ?_⟩
  · intro c hc
    simp [find_annotations_instance, hc]
  · intro h1 h2 c hc
    simp [find_annotations_instance, h1, h2, hc]
  · intro h1 h2 h3 c hc
    rcases h2 with h2 | h2 <;>
      simp [find_annotations_instance, h1, h2, h3, hc]
  · intro h1 h2 h3
    rcases h2 with h2 | h2 <;> rcases h3 with h3 | h3 <;>
      simp [find_annotations_instance, h1, h2, h3]
  · intro cfgs xyd e inst hfind
    simp [on_pick_event, hfind]
  · intro cfgs xyd e hfind
    simp [on_pick_event, hfind]

theorem find_annotations_instance_chain_witness :
    find_annotations_instance ⟨some 5, true, some 6, true, some 7⟩ = some 5 ∧
    find_annotations_instance ⟨none, true, some 6, true, some 7⟩ = some 6 ∧
    find_annotations_instance ⟨none, false, none, true, some 7⟩ = some 7 ∧
    find_annotations_instance ⟨none, false, none, false, none⟩ = none :=
  ⟨(find_annotations_instance_chain _).1 5 rfl,
   (find_annotations_instance_chain _).2.1 rfl rfl 6 rfl,
   (find_annotations_instance_chain _).2.2.1 rfl (Or.inl rfl) rfl 7 rfl,
   (find_annotations_instance_chain _).2.2.2.1 rfl (Or.inl rfl) (Or.inl rfl)⟩

/-- C5: a middle-click drag slides the annotation to a neighbouring
data index.  For strictly increasing x-data and an in-range starting
index, the index reached by `update_offset` (button 2) has its left
neighbour at or below the dragged x and its right neighbour at or
above it; exactly when the index changed, the anchor is re-set to
`xydata[index]` and, when a formatter is present, the text is
regenerated from it. -/
theorem update_offset_button2_slides (xydata : List (Int × Int))
    (fmt : Option (Nat → String)) (newX : Int) (s : AnnState)
    (hi : s.index < xydata.length)
    (hmono : ∀ p q, p < q → q < xydata.length →
      (xydata.getD p (0, 0)).1 < (xydata.getD q (0, 0)).1) :
    ((update_offset_button2 xydata fmt newX s).index = 0 ∨
       (xydata.getD ((update_offset_button2 xydata fmt newX s).index - 1)
          (0, 0)).1 ≤ newX) ∧
    ((update_offset_button2 xydata fmt newX s).index = xydata.length - 1 ∨
       newX ≤ (xydata.getD ((update_offset_button2 xydata fmt newX s).index + 1)
          (0, 0)).1) ∧
    ((update_offset_button2 xydata fmt newX s).index ≠ s.index →
       (update_offset_button2 xydata fmt newX s).xy =
         xydata.getD ((update_offset_button2 xydata fmt newX s).index) (0, 0) ∧
       (update_offset_button2 xydata fmt newX s).text =
         fmt.elim s.text
           (fun f => some (f ((update_offset_button2 xydata fmt newX s).index)))) ∧
    ((update_offset_button2 xydata fmt newX s).index = s.index →
       update_offset_button2 xydata fmt newX s = s) := by
  have hpost := slideIndex_post xydata newX s.index hi hmono
  by_cases hch : slideIndex xydata newX s.index = s.index
  · have hres : update_offset_button2 xydata fmt newX s = s := by
      simp [update_offset_button2, hch]
    rw [hres]
    rw [hch] at hpost
    exact ⟨hpost.1, hpost.2.1, fun h => absurd rfl h, fun _ => rfl⟩
  · have hres : update_offset_button2 xydata fmt newX s =
        { index := slideIndex xydata newX s.index
          xy := xydata.getD (slideIndex xydata newX s.index) (0, 0)
          text := match fmt with
                  | some f => some (f (slideIndex xydata newX s.index))
                  | none => s.text } := by
      simp [update_offset_button2, hch]
    rw [hres]
    refine ⟨hpost.1, hpost.2.1, fun _ => ⟨rfl, ?_⟩, fun heq => absurd heq hch⟩
    cases fmt <;> rfl

/-- A concrete strictly increasing three-point line. -/
def sampleLine : List (Int × Int) := [(0, 0), (10, 1), (20, 2)]

theorem update_offset_button2_slides_witness :
    ((update_offset_button2 sampleLine
        (some fun n => toString n) 15 ⟨0, (0, 0), none⟩).index = 0 ∨
       (sampleLine.getD
          ((update_offset_button2 sampleLine
              (some fun n => toString n) 15 ⟨0, (0, 0), none⟩).index - 1)
          (0, 0)).1 ≤ 15) ∧
    ((update_offset_button2 sampleLine
        (some fun n => toString n) 15 ⟨0, (0, 0), none⟩).index =
          sampleLine.length - 1 ∨
       (15 : Int) ≤ (sampleLine.getD
          ((update_offset_button2 sampleLine
              (some fun n => toString n) 15 ⟨0, (0, 0), none⟩).index + 1)
          (0, 0)).1) ∧
    ((update_offset_button2 sampleLine
        (some fun n => toString n) 15 ⟨0, (0, 0), none⟩).index ≠
          (⟨0, (0, 0), none⟩ : AnnState).index →
       (update_offset_button2 sampleLine
          (some fun n => toString n) 15 ⟨0, (0, 0), none⟩).xy =
         sampleLine.getD
           ((update_offset_button2 sampleLine
               (some fun n => toString n) 15 ⟨0, (0, 0), none⟩).index) (0, 0) ∧
       (update_offset_button2 sampleLine
          (some fun n => toString n) 15 ⟨0, (0, 0), none⟩).text =
         (some fun n => toString n : Option (Nat → String)).elim
           (⟨0, (0, 0), none⟩ : AnnState).text
           (fun f => some (f ((update_offset_button2 sampleLine
               (some fun n => toString n) 15 ⟨0, (0, 0), none⟩).index)))) ∧
    ((update_offset_button2 sampleLine
        (some fun n => toString n) 15 ⟨0, (0, 0), none⟩).index =
          (⟨0, (0, 0), none⟩ : AnnState).index →
       update_offset_button2 sampleLine
          (some fun n => toString n) 15 ⟨0, (0, 0), none⟩ =
         ⟨0, (0, 0), none⟩) :=
  update_offset_button2_slides sampleLine
    (some fun n => toString n) 15 ⟨0, (0, 0), none⟩ (by decide)
    (by intro p q hpq hq
        have hq3 : q < 3 := by simpa [sampleLine] using hq
        interval_cases q <;> interval_cases p <;> decide)

/-- C6: releasing after a right-click pick deletes the annotation:
`finalize_offset` with button 3 calls `remove`, which disconnects the
callbacks, removes the annotation artist, clears `got_artist` and
redraws the canvas; no other button value deletes. -/
theorem finalize_offset_right_click_deletes (s : DragArtist)
    (hasFormatter : Bool) :
    (finalize_offset 3 hasFormatter s = s.remove ∧
     (finalize_offset 3 hasFormatter s).connected = false ∧
     (finalize_offset 3 hasFormatter s).artistInFigure = false ∧
     (finalize_offset 3 hasFormatter s).got_artist = false ∧
     (finalize_offset 3 hasFormatter s).drawCount = s.drawCount + 1) ∧
    (∀ b : Nat, b ≠ 3 →
       (finalize_offset b hasFormatter s).artistInFigure = s.artistInFigure ∧
       (finalize_offset b hasFormatter s).connected = s.connected ∧
       (finalize_offset b hasFormatter s).got_artist = s.got_artist) := by
  constructor
  · refine ⟨?_, ?_, ?_, ?_, ?_⟩ <;> simp [finalize_offset, DragArtist.remove]
  · intro b hb
    by_cases hc : b = 2 ∧ hasFormatter = true <;>
      simp [finalize_offset, hc, hb]

theorem finalize_offset_right_click_deletes_witness :
    (finalize_offset 1 true ⟨true, true, true, 0, false⟩).artistInFigure =
      (⟨true, true, true, 0, false⟩ : DragArtist).artistInFigure ∧
    (finalize_offset 1 true ⟨true, true, true, 0, false⟩).connected =
      (⟨true, true, true, 0, false⟩ : DragArtist).connected ∧
    (finalize_offset 1 true ⟨true, true, true, 0, false⟩).got_artist =
      (⟨true, true, true, 0, false⟩ : DragArtist).got_artist :=
  (finalize_offset_right_click_deletes ⟨true, true, true, 0, false⟩ true).2
    1 (by decide)

/-- C7: a pick event creates an annotation exactly when the event's
button, key and artist type match the controller's configuration; the
annotation is bound to the middle in-range index
`event.ind[len(event.ind) // 2]` and anchored at that data point; any
mismatch creates nothing. -/
theorem onpick_creates_annotation_iff (cb : Nat) (ck : Option String)
    (xyd : List (Int × Int)) (e : PickEv) :
    (e.button = cb ∧ e.key = ck ∧ e.isLine2D = true →
       AnnotationPicker.onpick cb ck xyd e =
         some (xyd.getD (e.ind.getD (e.ind.length / 2) 0) (0, 0),
               e.ind.getD (e.ind.length / 2) 0)) ∧
    (¬(e.button = cb ∧ e.key = ck ∧ e.isLine2D = true) →
       AnnotationPicker.onpick cb ck xyd e = none) := by
  constructor <;> intro h <;>
    simp [AnnotationPicker.onpick, AnnotationPicker.annotate, h]

theorem onpick_creates_annotation_iff_witness :
    AnnotationPicker.onpick 1 (some "control") [(0, 0), (10, 1), (20, 2)]
      ⟨1, some "control", true, [0, 1, 2]⟩ = some ((10, 1), 1) ∧
    AnnotationPicker.onpick 1 (some "control") [(0, 0), (10, 1), (20, 2)]
      ⟨2, some "control", true, [0, 1, 2]⟩ = none :=
  ⟨(onpick_creates_annotation_iff 1 (some "control") [(0, 0), (10, 1), (20, 2)]
      ⟨1, some "control", true, [0, 1, 2]⟩).1 (by decide),
   (onpick_creates_annotation_iff 1 (some "control") [(0, 0), (10, 1), (20, 2)]
      ⟨2, some "control", true, [0, 1, 2]⟩).2 (by decide)⟩

/-- C8: `enable_callbacks` on a fresh canvas connects exactly
`pick_event` and `figure_enter_event`, storing both callback ids in
the `annotations_line2d` attribute, and it is idempotent: once the
attribute is present a call connects nothing and changes nothing. -/
theorem enable_callbacks_spec (c : Canvas) :
    (c.attr = none →
       enable_callbacks c =
         { attr := some [c.nextCid, c.nextCid + 1]
           connected := c.connected ++
             [("pick_event", c.nextCid), ("figure_enter_event", c.nextCid + 1)]
           nextCid := c.nextCid + 2 }) ∧
    (∀ l, c.attr = some l → enable_callbacks c = c) ∧
    enable_callbacks (enable_callbacks c) = enable_callbacks c := by
  refine ⟨?_, ?_, ?_⟩
  · intro h
    simp [enable_callbacks, h]
  · intro l h
    simp [enable_callbacks, h]
  · rcases h : c.attr with _ | l <;> simp [enable_callbacks, h]

theorem enable_callbacks_spec_witness :
    enable_callbacks ⟨none, [], 0⟩ =
      ⟨some [0, 1], [("pick_event", 0), ("figure_enter_event", 1)], 2⟩ ∧
    enable_callbacks ⟨some [9], [], 10⟩ = ⟨some [9], [], 10⟩ :=
  ⟨(enable_callbacks_spec ⟨none, [], 0⟩).1 rfl,
   (enable_callbacks_spec ⟨some [9], [], 10⟩).2.1 [9] rfl⟩

/-- C9: the middle-click slide never moves the stored index out of
bounds: for non-empty data and a starting index within
`[0, len - 1]`, the two while loops keep the index within
`[0, len - 1]`, so the row access `xydata[index]` is in range. -/
theorem slide_keeps_index_in_bounds (xs : List (Int × Int)) (newX : Int)
    (fmt : Option (Nat → String)) (s : AnnState)
    (hne : 0 < xs.length) (hi : s.index ≤ xs.length - 1) :
    slideIndex xs newX s.index ≤ xs.length - 1 ∧
    (update_offset_button2 xs fmt newX s).index < xs.length := by
  obtain ⟨h1, h2, h3, h4⟩ := moveRight_spec xs newX (moveLeft xs newX s.index)
  have hl := moveLeft_le xs newX s.index
  have hb : slideIndex xs newX s.index ≤ xs.length - 1 := h4 (by omega)
  refine ⟨hb, ?_⟩
  by_cases hch : slideIndex xs newX s.index = s.index
  · simp only [update_offset_button2, hch]
    simp
    omega
  · simp only [update_offset_button2]
    simp [hch]
    omega

theorem slide_keeps_index_in_bounds_witness :
    slideIndex [(0, 0)] 5 (⟨0, (0, 0), none⟩ : AnnState).index ≤
      [((0 : Int), (0 : Int))].length - 1 ∧
    (update_offset_button2 [(0, 0)] none 5 ⟨0, (0, 0), none⟩).index <
      [((0 : Int), (0 : Int))].length :=
  slide_keeps_index_in_bounds [(0, 0)] 5 none ⟨0, (0, 0), none⟩
    (by decide) (by decide)

/-- C10: `disable_callbacks` on a canvas that never had callbacks
enabled raises `AttributeError` instead of being a silent no-op: the
`getattr` default makes the disconnect loop vacuous, but the
unconditional `delattr` fails on the missing attribute. -/
theorem disable_callbacks_missing_attr_raises (c : Canvas)
    (h : c.attr = none) :
    c.attr.getD [] = [] ∧
    disable_callbacks c = .error "AttributeError" := by
  constructor
  · rw [h]; rfl
  · simp [disable_callbacks, h]

theorem disable_callbacks_missing_attr_raises_witness :
    (⟨none, [("pick_event", 3)], 5⟩ : Canvas).attr.getD [] = [] ∧
    disable_callbacks ⟨none, [("pick_event", 3)], 5⟩ =
      .error "AttributeError" :=
  disable_callbacks_missing_attr_raises ⟨none, [("pick_event", 3)], 5⟩ rfl

end AnnotationsLine2d
